import Mathlib

/-!
Shallow embedding of the job-orchestration core of VRchatVoiceJournal
(src/main.py and src/gui.py): the sqlite-backed store (DatabaseManager),
the work-queue queries, and the coordinator event loop (EventListener).

Modelling conventions:
* sqlite rows are Lean structures; each table is a list of rows kept in
  rowid (insertion) order.
* Machine-level details that no claim inspects (REAL lengths, timestamps
  inside log lines, uuid4 text) are carried as abstract strings; uuid4 is
  modelled by a fresh-name counter threaded through the store.
* A Python dict payload is a structure of Option fields: none stands for a
  missing key, so that a KeyError on a subscript access can be modelled.
  Handlers that can raise return Option Store, none standing for the
  exception (the sqlite transaction context manager rolls back, so the
  store seen by the caller is unchanged).
* sqlite NULL semantics for the recordings primary key: NULL never compares
  equal to anything, so an INSERT OR REPLACE with a NULL id never replaces
  an existing row, and UPDATE ... WHERE id = x never matches a NULL id.
-/

namespace VVJ

/-- Session lifecycle status, from the Status IntEnum of src/main.py
(ERROR = -1, PENDING = 0, TRANSCRIBE_DONE = 1, META_DONE = 2). -/
inductive Status where
  | error
  | pending
  | transcribeDone
  | metaDone
deriving DecidableEq, Repr

/-- Integer value of a status, as stored in the sqlite status column. -/
def Status.toInt : Status → Int
  | .error => -1
  | .pending => 0
  | .transcribeDone => 1
  | .metaDone => 2

/-- One row of the recordings table.  The id column is TEXT PRIMARY KEY and,
per sqlite, may be NULL (a record_done payload with no session_id inserts a
NULL id), hence Option String.  length and file_path are abstract strings. -/
structure SessionRow where
  id : Option String
  start_time : String
  length : String
  file_path : String
  status : Status
deriving DecidableEq, Repr

/-- One row of the transcribes table (id TEXT PRIMARY KEY, segments_json
TEXT).  handle_transcribe_done always supplies a string id (missing
session_id defaults to the empty string), so id is a plain String. -/
structure TranscribeRow where
  id : String
  segments_json : String
deriving DecidableEq, Repr

/-- One row of the markers table.  category is always inserted as NULL by
src/main.py (and absent from the gui.py schema). -/
structure MarkerRow where
  id : String
  session_id : String
  timestamp : Option String
  label : Option String
  category : Option String
deriving DecidableEq, Repr

/-- One row of the tags table. -/
structure TagRow where
  id : String
  session_id : String
  tag : String
deriving DecidableEq, Repr

/-- The persistent store: the four sqlite tables, in rowid order, plus a
fresh-name counter standing for the uuid4 generator. -/
structure Store where
  recordings : List SessionRow
  transcribes : List TranscribeRow
  markers : List MarkerRow
  tags : List TagRow
  nextUuid : Nat
deriving DecidableEq, Repr

/-- The store of a freshly initialised database. -/
def emptyStore : Store := ⟨[], [], [], [], 0⟩

/-- Text produced for the n-th uuid4 call. -/
def uuidStr (n : Nat) : String := "uuid-" ++ toString n

/-- One marker object inside a meta_done payload; marker.get with a None
default, hence Option fields. -/
structure MarkerInput where
  time : Option String
  content : Option String
deriving DecidableEq, Repr

/-- A worker message payload (a Python dict).  none stands for a missing
key.  markers and tags use payload.get defaults of the empty list. -/
structure Payload where
  session_id : Option String := none
  start_time : Option String := none
  length : Option String := none
  file_path : Option String := none
  segments_json : Option String := none
  markers : List MarkerInput := []
  tags : List String := []
  worker : Option String := none
  error_message : Option String := none
deriving DecidableEq, Repr

/-- Models the external json library on abstract JSON values (carried as
strings): serialisation tags the value. -/
def json_dumps (v : String) : String := "#" ++ v

/-- Models json.loads: inverts json_dumps and fails (none) on any string
that is not in the image of json_dumps, which models a JSONDecodeError. -/
def json_loads (s : String) : Option String :=
  if s.startsWith "#" then some (s.drop 1) else none

/-- sqlite equality on the nullable recordings primary key: NULL compares
equal to nothing, not even to NULL. -/
def sqlKeyEq : Option String → Option String → Bool
  | some a, some b => a = b
  | _, _ => false

namespace DatabaseManager

/-- INSERT OR REPLACE INTO recordings: the row with the same (non-NULL)
primary key is deleted and the new row appended at the end (fresh rowid);
with a NULL id nothing conflicts and the row is simply appended. -/
def upsertRecording (rows : List SessionRow) (row : SessionRow) : List SessionRow :=
  (rows.filter (fun q => !(sqlKeyEq q.id row.id))) ++ [row]

/-- INSERT OR REPLACE INTO transcribes (id is a non-null TEXT key). -/
def upsertTranscribe (rows : List TranscribeRow) (row : TranscribeRow) : List TranscribeRow :=
  (rows.filter (fun q => !(q.id = row.id : Bool))) ++ [row]

/-- DatabaseManager._update_status: UPDATE recordings SET status = s WHERE
id = sid.  Rows with a NULL id never match. -/
def _update_status (st : Store) (session_id : String) (status : Status) : Store :=
  { st with recordings :=
      st.recordings.map (fun r =>
        if r.id = some session_id then { r with status := status } else r) }

/-- DatabaseManager.handle_record_done: payload subscripts raise KeyError
(modelled as none) when start_time, length or file_path is missing;
otherwise INSERT OR REPLACE the session row at PENDING. -/
def handle_record_done (st : Store) (p : Payload) : Option Store :=
  match p.start_time, p.length, p.file_path with
  | some ts, some len, some fp =>
      some { st with recordings :=
        upsertRecording st.recordings ⟨p.session_id, ts, len, fp, Status.pending⟩ }
  | _, _, _ => none

/-- DatabaseManager.handle_transcribe_done: session_id defaults to the empty
string, payload subscript of segments_json raises when missing; otherwise
INSERT OR REPLACE the transcript and set status TRANSCRIBE_DONE (the update
silently matches nothing when the session row does not exist). -/
def handle_transcribe_done (st : Store) (p : Payload) : Option Store :=
  match p.segments_json with
  | none => none
  | some segs =>
      let sid := p.session_id.getD ""
      let rows := upsertTranscribe st.transcribes ⟨sid, json_dumps segs⟩
      some (_update_status { st with transcribes := rows } sid Status.transcribeDone)

/-- Insert one markers row per marker input, each with a fresh uuid, in
payload order. -/
def insertMarkers (sid : String) : List MarkerInput → Store → Store
  | [], st => st
  | m :: ms, st =>
      insertMarkers sid ms
        { st with
          markers := st.markers ++ [⟨uuidStr st.nextUuid, sid, m.time, m.content, none⟩],
          nextUuid := st.nextUuid + 1 }

/-- Insert one tags row per tag string, each with a fresh uuid, in payload
order. -/
def insertTags (sid : String) : List String → Store → Store
  | [], st => st
  | t :: ts, st =>
      insertTags sid ts
        { st with
          tags := st.tags ++ [⟨uuidStr st.nextUuid, sid, t⟩],
          nextUuid := st.nextUuid + 1 }

/-- DatabaseManager.handle_meta_done: session_id defaults to the empty
string; a falsy session_id logs and returns with no store change; otherwise
one transaction inserts all markers, then all tags, then sets META_DONE. -/
def handle_meta_done (st : Store) (p : Payload) : Store :=
  let sid := p.session_id.getD ""
  if sid = "" then st
  else _update_status (insertTags sid p.tags (insertMarkers sid p.markers st)) sid Status.metaDone

/-- DatabaseManager.handle_error: a truthy session_id (present and
non-empty) sets that session to ERROR, otherwise only a log line. -/
def handle_error (st : Store) (p : Payload) : Store :=
  match p.session_id with
  | some sid => if sid = "" then st else _update_status st sid Status.error
  | none => st

/-- First element of a list minimising a string key, scanning left to right
(models ORDER BY key ASC LIMIT 1; the claims proved below do not depend on
which row sqlite picks among ties). -/
def minByKey {α : Type} (key : α → String) : List α → Option α
  | [] => none
  | x :: xs => some (xs.foldl (fun best q => if key q < key best then q else best) x)

/-- DatabaseManager.find_pending_transcribe_job: SELECT id, file_path FROM
recordings WHERE status = PENDING ORDER BY start_time ASC LIMIT 1. -/
def find_pending_transcribe_job (st : Store) : Option (Option String × String) :=
  (minByKey (fun r => r.start_time)
      (st.recordings.filter (fun r => r.status = Status.pending))).map
    (fun r => (r.id, r.file_path))

/-- The rows of the join in find_pending_meta_job: recordings r JOIN
transcribes t ON r.id = t.id WHERE r.status = TRANSCRIBE_DONE (a NULL r.id
joins with nothing). -/
def metaJoinRows (st : Store) : List (SessionRow × TranscribeRow) :=
  (st.recordings.filter (fun r => r.status = Status.transcribeDone)).flatMap
    (fun r => (st.transcribes.filter (fun t => r.id = some t.id)).map (fun t => (r, t)))

/-- DatabaseManager.find_pending_meta_job: SELECT r.id, t.segments_json over
the join, ORDER BY r.start_time ASC LIMIT 1. -/
def find_pending_meta_job (st : Store) : Option (Option String × String) :=
  (minByKey (fun rt => rt.1.start_time) (metaJoinRows st)).map
    (fun rt => (rt.1.id, rt.2.segments_json))

end DatabaseManager

/-- Status of the session row with the given id (find over rowid order). -/
def statusOf (st : Store) (sid : String) : Option Status :=
  (st.recordings.find? (fun r => r.id = some sid)).map (fun r => r.status)

/-- Number of markers rows owned by the given session. -/
def markerCount (st : Store) (sid : String) : Nat :=
  (st.markers.filter (fun m => m.session_id = sid)).length

/-- Number of tags rows owned by the given session. -/
def tagCount (st : Store) (sid : String) : Nat :=
  (st.tags.filter (fun t => t.session_id = sid)).length

/-- Worker status values forwarded to the status bus (WorkerStatus IntEnum
of src/gui.py). -/
inductive WorkerStatus where
  | idle
  | running
  | paused
  | error
deriving DecidableEq, Repr

/-- A command put on one command queue by the coordinator: the task field of
the dict, with its payload where one exists. -/
inductive WTask where
  | transcribe (session_id : Option String) (file_path : String)
  | generate_meta (session_id : Option String) (segments : String)
  | standby
  | stop
deriving DecidableEq, Repr

/-- A message on the shared event queue (a Python dict): event and worker
default to the empty string via message.get, payload to the empty dict. -/
structure Message where
  event : String := ""
  worker : String := ""
  payload : Payload := {}
deriving DecidableEq, Repr

/-- Coordinator-side state of the event listener: the store it owns, the
ai_processing_paused flag (gui.py only), the names that own a command
queue, and the observable output streams, each in emission order: sent
commands (worker name, task), status-bus emissions, and log lines
(timestamps inside log text are not modelled). -/
structure ListenerState where
  store : Store
  paused : Bool
  commandQueues : List String
  sent : List (String × WTask)
  statusBus : List (String × WorkerStatus)
  logs : List String
deriving DecidableEq, Repr

/-- Put one command on the named command queue. -/
def putCmd (s : ListenerState) (w : String) (t : WTask) : ListenerState :=
  { s with sent := s.sent ++ [(w, t)] }

/-- EventListener.update_status: emit one (worker, status) pair on the
status bus. -/
def pushStatus (s : ListenerState) (w : String) (ws : WorkerStatus) : ListenerState :=
  { s with statusBus := s.statusBus ++ [(w, ws)] }

/-- EventListener.log: append one log line. -/
def addLog (s : ListenerState) (m : String) : ListenerState :=
  { s with logs := s.logs ++ [m] }

/-- Result of running one event handler: ok, or an escaped Python exception
together with the state as mutated by the side effects that happened before
the raise (sqlite transactions roll back, so the store part is whatever the
completed transactions left). -/
inductive HResult where
  | ok (s : ListenerState)
  | raised (s : ListenerState)
deriving DecidableEq, Repr

/-- State carried by either HResult constructor. -/
def HResult.state : HResult → ListenerState
  | .ok s => s
  | .raised s => s

/-- Lift a fallible DatabaseManager handler into the listener: none becomes
a raised exception with the store rolled back (unchanged). -/
def dbStep (s : ListenerState) (r : Option Store) : HResult :=
  match r with
  | some st => .ok { s with store := st }
  | none => .raised s

namespace MainListener

/-!
EventListener of src/main.py: no pause flag, no status bus; handlers
receive the message payload.
-/

/-- EventListener.handle_transcribe_job_request (src/main.py): look up the
command queue by payload worker name, silently return when absent, else
reply with the next pending transcription job or standby. -/
def handle_transcribe_job_request (s : ListenerState) (p : Payload) : ListenerState :=
  let w := p.worker.getD ""
  if s.commandQueues.contains w then
    match DatabaseManager.find_pending_transcribe_job s.store with
    | some (sid, fp) => putCmd s w (.transcribe sid fp)
    | none => putCmd s w .standby
  else s

/-- EventListener.handle_meta_job_request (src/main.py): like the
transcription case, but the stored segments_json is decoded first; a decode
failure is caught, logged and turned into a handle_error call (session set
to ERROR), with no reply sent. -/
def handle_meta_job_request (s : ListenerState) (p : Payload) : ListenerState :=
  let w := p.worker.getD ""
  if s.commandQueues.contains w then
    match DatabaseManager.find_pending_meta_job s.store with
    | some (sid, segsStr) =>
        match json_loads segsStr with
        | some segs => putCmd s w (.generate_meta sid segs)
        | none =>
            let ep : Payload := { session_id := sid, worker := some "EventListener",
                                  error_message := some "failed to decode segments_json" }
            { s with store := DatabaseManager.handle_error s.store ep }
    | none => putCmd s w .standby
  else s

end MainListener

namespace EventListener

/-!
EventListener of src/gui.py: ai_processing_paused flag, status-bus
emissions, and the richer event table.
-/

/-- EventListener.toggle_ai_pause: flip the flag, log the new state, then
emit PAUSED for both AI workers (the source emits PAUSED on both the pause
and the resume direction). -/
def toggle_ai_pause (s : ListenerState) (_m : Message) : ListenerState :=
  let s1 := { s with paused := !s.paused }
  let s2 := addLog s1 (if s1.paused then "AI processing paused" else "AI processing resumed")
  pushStatus (pushStatus s2 "TranscribeWorker-1" .paused) "MetaGenWorker-1" .paused

/-- EventListener.handle_transcribe_job_request (src/gui.py): unknown worker
name means no queue and a silent return; while paused always standby; else
assign the next pending job (emitting RUNNING first) or standby. -/
def handle_transcribe_job_request (s : ListenerState) (m : Message) : ListenerState :=
  let w := m.worker
  if s.commandQueues.contains w then
    if s.paused then putCmd s w .standby
    else
      match DatabaseManager.find_pending_transcribe_job s.store with
      | some (sid, fp) => putCmd (pushStatus s "TranscribeWorker-1" .running) w (.transcribe sid fp)
      | none => putCmd s w .standby
  else s

/-- EventListener.handle_meta_job_request (src/gui.py): as above for the
metadata job class; json.loads runs while building the reply, so a decode
failure raises after the RUNNING emission and before any reply. -/
def handle_meta_job_request (s : ListenerState) (m : Message) : HResult :=
  let w := m.worker
  if s.commandQueues.contains w then
    if s.paused then .ok (putCmd s w .standby)
    else
      match DatabaseManager.find_pending_meta_job s.store with
      | some (sid, segsStr) =>
          let s1 := pushStatus s "MetaGenWorker-1" .running
          match json_loads segsStr with
          | some segs => .ok (putCmd s1 w (.generate_meta sid segs))
          | none => .raised s1
      | none => .ok (putCmd s w .standby)
  else .ok s

/-- EventListener.handle_error (src/gui.py): log the error, then record it
in the store. -/
def handle_error (s : ListenerState) (m : Message) : ListenerState :=
  let s1 := addLog s "error reported by worker"
  { s1 with store := DatabaseManager.handle_error s1.store m.payload }

/-- The status if/elif chain at the top of EventListener.listen
(src/gui.py): map the event name to a worker-status emission for the
message worker field. -/
def statusByEvent (s : ListenerState) (m : Message) : ListenerState :=
  if m.event = "record_started" ∨ m.event = "transcribe_started" ∨ m.event = "meta_started" then
    pushStatus s m.worker .running
  else if m.event = "record_paused" then pushStatus s m.worker .paused
  else if m.event = "record_resumed" then pushStatus s m.worker .running
  else if m.event = "record_done" ∨ m.event = "transcribe_done" ∨ m.event = "meta_done" then
    pushStatus s m.worker .idle
  else if m.event = "record_idle" ∨ m.event = "transcribe_idle" ∨ m.event = "meta_idle" then
    pushStatus s m.worker .idle
  else if m.event = "error" then pushStatus s m.worker .error
  else s

/-- The event_handlers dict lookup plus the handler call: none when the
event name has no handler; otherwise the handler result.  Pure
status-plus-log handlers are written inline. -/
def runHandler (s : ListenerState) (m : Message) : Option HResult :=
  match m.event with
  | "record_started" => some (.ok (addLog (pushStatus s "RecordWorker-1" .running) "record worker started"))
  | "record_done" => some (dbStep s (DatabaseManager.handle_record_done s.store m.payload))
  | "record_paused" => some (.ok (addLog (pushStatus s "RecordWorker-1" .paused) "record worker paused"))
  | "record_resumed" => some (.ok (addLog (pushStatus s "RecordWorker-1" .running) "record worker resumed"))
  | "record_idle" => some (.ok (addLog (pushStatus s "RecordWorker-1" .idle) "record worker idle"))
  | "transcribe_started" => some (.ok (addLog (pushStatus s "TranscribeWorker-1" .running) "transcribe worker started"))
  | "transcribe_done" => some (dbStep s (DatabaseManager.handle_transcribe_done s.store m.payload))
  | "transcribe_idle" => some (.ok (addLog (pushStatus s "TranscribeWorker-1" .idle) "transcribe worker idle"))
  | "meta_started" => some (.ok (addLog (pushStatus s "MetaGenWorker-1" .running) "metagen worker started"))
  | "meta_done" => some (.ok { s with store := DatabaseManager.handle_meta_done s.store m.payload })
  | "meta_idle" => some (.ok (addLog (pushStatus s "MetaGenWorker-1" .idle) "metagen worker idle"))
  | "error" => some (.ok (handle_error s m))
  | "request_transcribe_job" => some (.ok (handle_transcribe_job_request s m))
  | "request_metagen_job" => some (handle_meta_job_request s m)
  | "toggle_ai_pause" => some (.ok (toggle_ai_pause s m))
  | _ => none

/-- Warning line for an unknown event name. -/
def unknownWarn (e : String) : String := "[WARNING] Unknown event: " ++ e

/-- Error line for an exception caught while handling an event. -/
def handlerFailWarn (e : String) : String := "[ERROR] while handling " ++ e

/-- One iteration of EventListener.listen on a received message: first the
status if/elif chain, then handler dispatch; an unknown event only logs a
warning, and an exception escaping a handler is caught and logged. -/
def listen_step (s : ListenerState) (m : Message) : ListenerState :=
  let s1 := statusByEvent s m
  match runHandler s1 m with
  | none => addLog s1 (unknownWarn m.event)
  | some (.ok s2) => s2
  | some (.raised s2) => addLog s2 (handlerFailWarn m.event)

/-- The listen loop over a finite inbound message sequence (queue timeouts,
which only re-enter the loop, are invisible here). -/
def listen_run (s : ListenerState) : List Message → ListenerState
  | [] => s
  | m :: ms => listen_run (listen_step s m) ms

end EventListener

/-- Characterisation of the single reply a transcription job_requested event
receives once its queue is found and dispatch is not paused: the next
pending job, else standby.  Used to compare handler output with the spec
sentence about dispatch. -/
def replyOfTranscribe (st : Store) : WTask :=
  match DatabaseManager.find_pending_transcribe_job st with
  | some (sid, fp) => .transcribe sid fp
  | none => .standby

/-- Characterisation of the reply to a metadata job_requested event: none
when the stored segments_json fails to decode (the src/main.py handler then
sends nothing), else the assignment or standby. -/
def metaReplyOf (st : Store) : Option WTask :=
  match DatabaseManager.find_pending_meta_job st with
  | some (sid, segsStr) => (json_loads segsStr).map (fun segs => WTask.generate_meta sid segs)
  | none => some .standby

/-! Concrete fixtures used by counterexamples and witnesses. -/

/-- A meta_done payload whose session id has no session row anywhere. -/
def pGhost : Payload :=
  { session_id := some "ghost", markers := [⟨some "2.0", some "greeting"⟩], tags := ["casual"] }

/-- A store holding a single session that already reached META_DONE,
together with its transcript. -/
def stMeta1 : Store :=
  ⟨[⟨some "s1", "2024-01-01T10:00:00", "5.0", "a.wav", Status.metaDone⟩],
   [⟨"s1", json_dumps "segsA"⟩], [], [], 0⟩

/-- A duplicate transcribe_done payload for the session of stMeta1. -/
def pTr1 : Payload := { session_id := some "s1", segments_json := some "segsA" }

/-- The capture_completed payload of the end-to-end scenario. -/
def pRec4 : Payload :=
  { session_id := some "s1", start_time := some "2024-01-01T10:00:00",
    length := some "5.0", file_path := some "a.wav" }

/-- The metadata_completed payload of the end-to-end scenario: one marker,
one tag. -/
def pMeta4 : Payload :=
  { session_id := some "s1", markers := [⟨some "2.0", some "greeting"⟩], tags := ["casual"] }

/-- A listener that registered only the transcription worker queue. -/
def s6 : ListenerState := ⟨emptyStore, false, ["TranscribeWorker-1"], [], [], []⟩

/-- A job request carrying a worker name with no registered queue. -/
def p6 : Payload := { worker := some "ghost" }

/-- A transcribe_done payload for a session id absent from the store. -/
def pTr7 : Payload := { session_id := some "x", segments_json := some "segsX" }

/-- The transcription_completed payload of the end-to-end scenario. -/
def pTr4 : Payload := { session_id := some "s1", segments_json := some "segsA" }

/-- A job request from the registered transcription worker (payload form,
as read by src/main.py handlers). -/
def p6b : Payload := { worker := some "TranscribeWorker-1" }

/-- A meta_done payload whose session_id key is missing. -/
def p10 : Payload := { markers := [⟨some "1.0", some "x"⟩], tags := ["y"] }

/-- A listener with the pause flag set (every queue registered). -/
def s9 : ListenerState :=
  ⟨emptyStore, true, ["RecordWorker-1", "TranscribeWorker-1", "MetaGenWorker-1"], [], [], []⟩

/-- A store with one PENDING session and one TRANSCRIBE_DONE session with
its transcript. -/
def stW2 : Store :=
  ⟨[⟨some "a", "2024-01-01T00:00:00", "1.0", "fa.wav", Status.pending⟩,
    ⟨some "b", "2024-01-02T00:00:00", "1.0", "fb.wav", Status.transcribeDone⟩],
   [⟨"b", json_dumps "segB"⟩], [], [], 0⟩

/-- A paused listener over stW2 with the transcription queue registered. -/
def s5 : ListenerState := ⟨stW2, true, ["TranscribeWorker-1"], [], [], []⟩

/-- A transcription job request from the registered worker. -/
def m5 : Message := { event := "request_transcribe_job", worker := "TranscribeWorker-1" }

/-- A minimal listener state. -/
def s8 : ListenerState := ⟨emptyStore, false, [], [], [], []⟩

/-- A message whose event name has no handler. -/
def m8 : Message := { event := "bogus_event" }

/-! Helper lemmas. -/

theorem foldl_minBy_mem {α : Type} (key : α → String) :
    ∀ (l : List α) (x : α),
      l.foldl (fun best q => if key q < key best then q else best) x = x ∨
      l.foldl (fun best q => if key q < key best then q else best) x ∈ l := by
  intro l
  induction l with
  | nil => intro x; left; rfl
  | cons a as ih =>
    intro x
    simp only [List.foldl_cons]
    rcases ih (if key a < key x then a else x) with h | h
    · rw [h]
      by_cases hc : key a < key x
      · right; rw [if_pos hc]; exact List.mem_cons_self a as
      · left; rw [if_neg hc]
    · right; exact List.mem_cons_of_mem _ h

theorem foldl_minBy_le {α : Type} (key : α → String) :
    ∀ (l : List α) (x : α),
      key (l.foldl (fun best q => if key q < key best then q else best) x) ≤ key x ∧
      ∀ y ∈ l, key (l.foldl (fun best q => if key q < key best then q else best) x) ≤ key y := by
  intro l
  induction l with
  | nil => intro x; exact ⟨le_refl _, by simp⟩
  | cons a as ih =>
    intro x
    simp only [List.foldl_cons]
    obtain ⟨h1, h2⟩ := ih (if key a < key x then a else x)
    have hx : key (if key a < key x then a else x) ≤ key x := by
      by_cases hc : key a < key x
      · rw [if_pos hc]; exact le_of_lt hc
      · rw [if_neg hc]
    have ha : key (if key a < key x then a else x) ≤ key a := by
      by_cases hc : key a < key x
      · rw [if_pos hc]
      · rw [if_neg hc]; exact le_of_not_lt hc
    refine ⟨le_trans h1 hx, ?_⟩
    intro y hy
    rcases List.mem_cons.mp hy with h | hy2
    · rw [h]; exact le_trans h1 ha
    · exact h2 y hy2

theorem minByKey_spec {α : Type} (key : α → String) (l : List α) (m : α)
    (h : DatabaseManager.minByKey key l = some m) :
    m ∈ l ∧ ∀ y ∈ l, key m ≤ key y := by
  cases l with
  | nil => simp [DatabaseManager.minByKey] at h
  | cons a as =>
    simp only [DatabaseManager.minByKey, Option.some.injEq] at h
    subst h
    refine ⟨?_, ?_⟩
    · rcases foldl_minBy_mem key as a with h | h
      · rw [h]; exact List.mem_cons_self a as
      · exact List.mem_cons_of_mem _ h
    · intro y hy
      obtain ⟨h1, h2⟩ := foldl_minBy_le key as a
      rcases List.mem_cons.mp hy with h | hy2
      · rw [h]; exact h1
      · exact h2 y hy2

theorem minByKey_none {α : Type} (key : α → String) (l : List α) :
    DatabaseManager.minByKey key l = none ↔ l = [] := by
  cases l <;> simp [DatabaseManager.minByKey]

theorem mem_metaJoinRows (st : Store) (r : SessionRow) (t : TranscribeRow) :
    (r, t) ∈ DatabaseManager.metaJoinRows st ↔
      r ∈ st.recordings ∧ t ∈ st.transcribes ∧
        r.status = Status.transcribeDone ∧ r.id = some t.id := by
  simp only [DatabaseManager.metaJoinRows, List.mem_flatMap, List.mem_filter,
    List.mem_map, Prod.mk.injEq, decide_eq_true_eq]
  constructor
  · rintro ⟨r1, ⟨hr1, hs1⟩, t1, ⟨ht1, hid1⟩, h1, h2⟩
    subst h1; subst h2
    exact ⟨hr1, ht1, hs1, hid1⟩
  · rintro ⟨hr, ht, hs, hid⟩
    exact ⟨r, ⟨hr, hs⟩, t, ⟨ht, hid⟩, rfl, rfl⟩

theorem insertMarkers_recordings (sid : String) (ms : List MarkerInput) (st : Store) :
    (DatabaseManager.insertMarkers sid ms st).recordings = st.recordings := by
  induction ms generalizing st with
  | nil => rfl
  | cons m ms ih => simp [DatabaseManager.insertMarkers, ih]

theorem insertMarkers_tags (sid : String) (ms : List MarkerInput) (st : Store) :
    (DatabaseManager.insertMarkers sid ms st).tags = st.tags := by
  induction ms generalizing st with
  | nil => rfl
  | cons m ms ih => simp [DatabaseManager.insertMarkers, ih]

theorem insertMarkers_transcribes (sid : String) (ms : List MarkerInput) (st : Store) :
    (DatabaseManager.insertMarkers sid ms st).transcribes = st.transcribes := by
  induction ms generalizing st with
  | nil => rfl
  | cons m ms ih => simp [DatabaseManager.insertMarkers, ih]

theorem markerCount_insertMarkers (sid : String) (ms : List MarkerInput) (st : Store) :
    markerCount (DatabaseManager.insertMarkers sid ms st) sid =
      markerCount st sid + ms.length := by
  induction ms generalizing st with
  | nil => rfl
  | cons m ms ih =>
    rw [DatabaseManager.insertMarkers, ih]
    simp [markerCount, List.filter_append]
    omega

theorem insertTags_recordings (sid : String) (ts : List String) (st : Store) :
    (DatabaseManager.insertTags sid ts st).recordings = st.recordings := by
  induction ts generalizing st with
  | nil => rfl
  | cons t ts ih => simp [DatabaseManager.insertTags, ih]

theorem insertTags_markers (sid : String) (ts : List String) (st : Store) :
    (DatabaseManager.insertTags sid ts st).markers = st.markers := by
  induction ts generalizing st with
  | nil => rfl
  | cons t ts ih => simp [DatabaseManager.insertTags, ih]

theorem tagCount_insertTags (sid : String) (ts : List String) (st : Store) :
    tagCount (DatabaseManager.insertTags sid ts st) sid = tagCount st sid + ts.length := by
  induction ts generalizing st with
  | nil => rfl
  | cons t ts ih =>
    rw [DatabaseManager.insertTags, ih]
    simp [tagCount, List.filter_append]
    omega

theorem update_status_markers (st : Store) (sid : String) (s : Status) :
    (DatabaseManager._update_status st sid s).markers = st.markers := rfl

theorem update_status_tags (st : Store) (sid : String) (s : Status) :
    (DatabaseManager._update_status st sid s).tags = st.tags := rfl

theorem findRow_update_self (l : List SessionRow) (sid : String) (s : Status) :
    ((l.map (fun r => if r.id = some sid then { r with status := s } else r)).find?
        (fun r => r.id = some sid)).map (fun r => r.status) =
      ((l.find? (fun r => r.id = some sid)).map (fun r => r.status)).map (fun _ => s) := by
  induction l with
  | nil => rfl
  | cons r rs ih =>
    by_cases h : r.id = some sid
    · simp [List.find?, h]
    · simp only [List.map_cons, List.find?]
      simp only [h, if_false, decide_False]
      simpa using ih

theorem statusOf_update_self (st : Store) (sid : String) (s : Status) :
    statusOf (DatabaseManager._update_status st sid s) sid =
      (statusOf st sid).map (fun _ => s) := by
  simp only [statusOf, DatabaseManager._update_status]
  exact findRow_update_self st.recordings sid s

theorem markerCount_eq_of_markers_eq {st1 st2 : Store} (h : st1.markers = st2.markers)
    (sid : String) : markerCount st1 sid = markerCount st2 sid := by
  simp [markerCount, h]

theorem tagCount_eq_of_tags_eq {st1 st2 : Store} (h : st1.tags = st2.tags)
    (sid : String) : tagCount st1 sid = tagCount st2 sid := by
  simp [tagCount, h]

theorem statusOf_eq_of_recordings_eq {st1 st2 : Store} (h : st1.recordings = st2.recordings)
    (sid : String) : statusOf st1 sid = statusOf st2 sid := by
  simp [statusOf, h]

theorem statusByEvent_store (s : ListenerState) (m : Message) :
    (EventListener.statusByEvent s m).store = s.store := by
  unfold EventListener.statusByEvent
  split_ifs <;> rfl

theorem statusByEvent_sent (s : ListenerState) (m : Message) :
    (EventListener.statusByEvent s m).sent = s.sent := by
  unfold EventListener.statusByEvent
  split_ifs <;> rfl

/-! Claim theorems. -/

/-- C1: the store operation for metadata_completed is one transaction, but
the unknown-session half of the claim fails on the code: for a session id
with no session row, the handler still inserts the marker and tag rows
(sqlite never enforces the declared FOREIGN KEYs because the code does not
switch them on), so the markers and tags row counts change.  This theorem
evaluates the embedded handler at the failing input: an empty store and a
meta_done event for the unknown id carrying one marker and one tag. -/
theorem c1_meta_done_unknown_session_inserts_orphans :
    (DatabaseManager.handle_meta_done emptyStore pGhost).markers.length = 1 ∧
    (DatabaseManager.handle_meta_done emptyStore pGhost).tags.length = 1 ∧
    (DatabaseManager.handle_meta_done emptyStore pGhost).recordings = [] := by
  decide

/-- C7: the claim that transcription_completed for an unknown session fails
with NotFound and writes no transcript contradicts the code: the handler
INSERT OR REPLACEs the transcript unconditionally and the status UPDATE
silently matches nothing, leaving an orphan transcript row (the declared
FOREIGN KEY is never enforced).  Evaluation at the failing input. -/
theorem c7_transcribe_done_unknown_session_orphan :
    (DatabaseManager.handle_transcribe_done emptyStore pTr7).map
        (fun st => (st.recordings, st.transcribes)) =
      some ([], [⟨"x", json_dumps "segsX"⟩]) := by
  decide

/-- C9 counterexample: starting from a listener whose pause flag is set,
one toggle clears the flag, yet the statuses forwarded to the bus are
PAUSED for both AI workers — no RESUMED (running or idle) status is ever
emitted, contradicting the claim as stated. -/
theorem c9_resume_emits_paused_counterexample :
    (EventListener.toggle_ai_pause s9 { event := "toggle_ai_pause" }).paused = false ∧
    (EventListener.toggle_ai_pause s9 { event := "toggle_ai_pause" }).statusBus =
      [("TranscribeWorker-1", WorkerStatus.paused), ("MetaGenWorker-1", WorkerStatus.paused)] := by
  decide

/-- C9 (amended): on every toggle of the processing-pause flag the
coordinator flips the flag and forwards a PAUSED status for each AI worker
role (transcription and metadata) regardless of the direction of the
toggle; the capture worker status is never touched and the store and
command queues are unchanged. -/
theorem c9_toggle_always_emits_paused (s : ListenerState) (m : Message) :
    (EventListener.toggle_ai_pause s m).paused = !s.paused ∧
    (EventListener.toggle_ai_pause s m).statusBus = s.statusBus ++
      [("TranscribeWorker-1", WorkerStatus.paused), ("MetaGenWorker-1", WorkerStatus.paused)] ∧
    (EventListener.toggle_ai_pause s m).store = s.store ∧
    (EventListener.toggle_ai_pause s m).sent = s.sent := by
  refine ⟨rfl, ?_, rfl, rfl⟩
  simp [EventListener.toggle_ai_pause, pushStatus, addLog]

/-- C10: a metadata_completed payload with no session_id key, or with the
empty string as session_id, makes the handler return before the
transaction: the store is returned entirely unchanged. -/
theorem c10_meta_done_missing_session_id_noop (st : Store) (p : Payload)
    (h : p.session_id = none ∨ p.session_id = some "") :
    DatabaseManager.handle_meta_done st p = st := by
  rcases h with h | h <;> simp [DatabaseManager.handle_meta_done, h]

/-- C10 witness: the no-op at a concrete empty-session-id payload. -/
theorem c10_meta_done_missing_session_id_noop_witness :
    DatabaseManager.handle_meta_done emptyStore p10 = emptyStore :=
  c10_meta_done_missing_session_id_noop emptyStore p10 (Or.inl rfl)

/-- C3 counterexample: a session at META_DONE receives a duplicate
transcribe_done and its status is set back to TRANSCRIBE_DONE — automatic
processing does move a status backward. -/
theorem c3_duplicate_transcribe_done_moves_status_backward :
    statusOf stMeta1 "s1" = some Status.metaDone ∧
    (DatabaseManager.handle_transcribe_done stMeta1 pTr1).map (fun st => statusOf st "s1") =
      some (some Status.transcribeDone) := by
  decide

/-- C3 (amended): the handlers do not preserve pipeline monotonicity; each
one overwrites the status with its own fixed stage regardless of the
current one: record_done replaces the whole session row at PENDING,
transcribe_done sets every row with the payload session id to
TRANSCRIBE_DONE, and meta_done (with a non-empty id) sets it to META_DONE,
so duplicate deliveries move advanced sessions backward. -/
theorem c3_handlers_set_fixed_status :
    (∀ (st : Store) (p : Payload) (st' : Store),
        DatabaseManager.handle_record_done st p = some st' →
        ∃ row, st'.recordings =
            (st.recordings.filter (fun r => !(sqlKeyEq r.id p.session_id))) ++ [row] ∧
          row.id = p.session_id ∧ row.status = Status.pending) ∧
    (∀ (st : Store) (p : Payload) (st' : Store),
        DatabaseManager.handle_transcribe_done st p = some st' →
        st'.recordings = st.recordings.map (fun r =>
          if r.id = some (p.session_id.getD "") then { r with status := Status.transcribeDone }
          else r)) ∧
    (∀ (st : Store) (p : Payload) (sid : String), p.session_id = some sid → sid ≠ "" →
        (DatabaseManager.handle_meta_done st p).recordings = st.recordings.map (fun r =>
          if r.id = some sid then { r with status := Status.metaDone } else r)) := by
  refine ⟨?_, ?_, ?_⟩
  · intro st p st' h
    rcases h1 : p.start_time with _ | ts <;> rcases h2 : p.length with _ | len <;>
      rcases h3 : p.file_path with _ | fp <;>
      simp [DatabaseManager.handle_record_done, h1, h2, h3] at h
    subst h
    exact ⟨⟨p.session_id, ts, len, fp, Status.pending⟩, rfl, rfl, rfl⟩
  · intro st p st' h
    rcases h1 : p.segments_json with _ | segs <;>
      simp [DatabaseManager.handle_transcribe_done, h1] at h
    subst h
    rfl
  · intro st p sid h hne
    have hunfold : DatabaseManager.handle_meta_done st p =
        DatabaseManager._update_status
          (DatabaseManager.insertTags sid p.tags (DatabaseManager.insertMarkers sid p.markers st))
          sid Status.metaDone := by
      simp [DatabaseManager.handle_meta_done, h, hne]
    rw [hunfold]
    show (DatabaseManager.insertTags sid p.tags
        (DatabaseManager.insertMarkers sid p.markers st)).recordings.map _ = _
    rw [insertTags_recordings, insertMarkers_recordings]

/-- C3 witness for the amended theorem: the META_DONE session of stMeta1
is rewritten by a metadata_completed delivery. -/
theorem c3_handlers_set_fixed_status_witness :
    (DatabaseManager.handle_meta_done stMeta1 pMeta4).recordings =
      stMeta1.recordings.map (fun r =>
        if r.id = some "s1" then { r with status := Status.metaDone } else r) :=
  c3_handlers_set_fixed_status.2.2 stMeta1 pMeta4 "s1" rfl (by decide)

/-- C4 counterexample: running the end-to-end scenario (record_done,
transcribe_done, meta_done with one marker and one tag) yields counts
(1, 1) and status META_DONE, but re-delivering the identical meta_done
payload appends a second batch, yielding counts (2, 2) — the re-run is not
idempotent, contradicting the claim. -/
theorem c4_meta_done_redelivery_duplicates :
    ((DatabaseManager.handle_record_done emptyStore pRec4).bind
        (fun a => DatabaseManager.handle_transcribe_done a pTr4)).map
      (fun b =>
        (markerCount (DatabaseManager.handle_meta_done b pMeta4) "s1",
         tagCount (DatabaseManager.handle_meta_done b pMeta4) "s1",
         statusOf (DatabaseManager.handle_meta_done b pMeta4) "s1",
         markerCount (DatabaseManager.handle_meta_done
           (DatabaseManager.handle_meta_done b pMeta4) pMeta4) "s1",
         tagCount (DatabaseManager.handle_meta_done
           (DatabaseManager.handle_meta_done b pMeta4) pMeta4) "s1")) =
      some (1, 1, some Status.metaDone, 2, 2) := by
  decide

/-- C4 (amended): after transcription_completed followed by
metadata_completed the session status is META_DONE and the store holds
exactly len(markers) marker rows and len(tags) tag rows beyond what it
already had; but re-delivering the same payload appends a further batch,
so the counts after the second delivery are previous + 2·len, not
unchanged — duplication, not idempotence. -/
theorem c4_meta_done_append_counts (st : Store) (p : Payload) (sid : String)
    (h : p.session_id = some sid) (hne : sid ≠ "") :
    markerCount (DatabaseManager.handle_meta_done st p) sid =
      markerCount st sid + p.markers.length ∧
    tagCount (DatabaseManager.handle_meta_done st p) sid =
      tagCount st sid + p.tags.length ∧
    statusOf (DatabaseManager.handle_meta_done st p) sid =
      (statusOf st sid).map (fun _ => Status.metaDone) ∧
    markerCount (DatabaseManager.handle_meta_done
        (DatabaseManager.handle_meta_done st p) p) sid =
      markerCount st sid + 2 * p.markers.length ∧
    tagCount (DatabaseManager.handle_meta_done
        (DatabaseManager.handle_meta_done st p) p) sid =
      tagCount st sid + 2 * p.tags.length := by
  have hunfold : ∀ st0 : Store, DatabaseManager.handle_meta_done st0 p =
      DatabaseManager._update_status
        (DatabaseManager.insertTags sid p.tags (DatabaseManager.insertMarkers sid p.markers st0))
        sid Status.metaDone := by
    intro st0
    simp [DatabaseManager.handle_meta_done, h, hne]
  have hm : ∀ st0 : Store, markerCount (DatabaseManager.handle_meta_done st0 p) sid =
      markerCount st0 sid + p.markers.length := by
    intro st0
    rw [hunfold st0]
    calc markerCount (DatabaseManager._update_status
            (DatabaseManager.insertTags sid p.tags
              (DatabaseManager.insertMarkers sid p.markers st0)) sid Status.metaDone) sid
        = markerCount (DatabaseManager.insertMarkers sid p.markers st0) sid :=
          markerCount_eq_of_markers_eq
            (by rw [update_status_markers, insertTags_markers]) sid
      _ = markerCount st0 sid + p.markers.length := markerCount_insertMarkers sid p.markers st0
  have ht : ∀ st0 : Store, tagCount (DatabaseManager.handle_meta_done st0 p) sid =
      tagCount st0 sid + p.tags.length := by
    intro st0
    rw [hunfold st0]
    calc tagCount (DatabaseManager._update_status
            (DatabaseManager.insertTags sid p.tags
              (DatabaseManager.insertMarkers sid p.markers st0)) sid Status.metaDone) sid
        = tagCount (DatabaseManager.insertTags sid p.tags
            (DatabaseManager.insertMarkers sid p.markers st0)) sid :=
          tagCount_eq_of_tags_eq (update_status_tags _ sid Status.metaDone) sid
      _ = tagCount (DatabaseManager.insertMarkers sid p.markers st0) sid + p.tags.length :=
          tagCount_insertTags sid p.tags _
      _ = tagCount st0 sid + p.tags.length := by
          rw [tagCount_eq_of_tags_eq (insertMarkers_tags sid p.markers st0) sid]
  have hs : statusOf (DatabaseManager.handle_meta_done st p) sid =
      (statusOf st sid).map (fun _ => Status.metaDone) := by
    rw [hunfold st, statusOf_update_self]
    rw [statusOf_eq_of_recordings_eq
      (by rw [insertTags_recordings, insertMarkers_recordings] :
        (DatabaseManager.insertTags sid p.tags
          (DatabaseManager.insertMarkers sid p.markers st)).recordings = st.recordings) sid]
  refine ⟨hm st, ht st, hs, ?_, ?_⟩
  · rw [hm _, hm st]; omega
  · rw [ht _, ht st]; omega

/-- C4 witness for the amended theorem: the concrete double delivery over
the store stMeta1, which has the session row but no markers or tags yet. -/
theorem c4_meta_done_append_counts_witness :
    markerCount (DatabaseManager.handle_meta_done stMeta1 pMeta4) "s1" =
      markerCount stMeta1 "s1" + pMeta4.markers.length ∧
    tagCount (DatabaseManager.handle_meta_done stMeta1 pMeta4) "s1" =
      tagCount stMeta1 "s1" + pMeta4.tags.length ∧
    statusOf (DatabaseManager.handle_meta_done stMeta1 pMeta4) "s1" =
      (statusOf stMeta1 "s1").map (fun _ => Status.metaDone) ∧
    markerCount (DatabaseManager.handle_meta_done
        (DatabaseManager.handle_meta_done stMeta1 pMeta4) pMeta4) "s1" =
      markerCount stMeta1 "s1" + 2 * pMeta4.markers.length ∧
    tagCount (DatabaseManager.handle_meta_done
        (DatabaseManager.handle_meta_done stMeta1 pMeta4) pMeta4) "s1" =
      tagCount stMeta1 "s1" + 2 * pMeta4.tags.length :=
  c4_meta_done_append_counts stMeta1 pMeta4 "s1" rfl (by decide)

/-- C2: for every store state, find_pending_transcribe_job returns a
PENDING session whose start_time is minimal among all PENDING sessions and
never one with another status, and is none exactly when no PENDING session
exists; find_pending_meta_job returns a TRANSCRIBE_DONE session joined with
its transcript, of minimal start_time among all such joined sessions, and
is none exactly when no TRANSCRIBE_DONE session with a transcript exists. -/
theorem c2_find_pending_jobs_earliest (st : Store) :
    (∀ sid fp, DatabaseManager.find_pending_transcribe_job st = some (sid, fp) →
        ∃ r, r ∈ st.recordings ∧ r.status = Status.pending ∧ r.id = sid ∧ r.file_path = fp ∧
          ∀ q ∈ st.recordings, q.status = Status.pending → r.start_time ≤ q.start_time) ∧
    (DatabaseManager.find_pending_transcribe_job st = none ↔
        ∀ r ∈ st.recordings, r.status ≠ Status.pending) ∧
    (∀ sid segs, DatabaseManager.find_pending_meta_job st = some (sid, segs) →
        ∃ r t, r ∈ st.recordings ∧ t ∈ st.transcribes ∧ r.status = Status.transcribeDone ∧
          r.id = some t.id ∧ sid = r.id ∧ segs = t.segments_json ∧
          ∀ r' t', r' ∈ st.recordings → t' ∈ st.transcribes →
            r'.status = Status.transcribeDone → r'.id = some t'.id →
            r.start_time ≤ r'.start_time) ∧
    (DatabaseManager.find_pending_meta_job st = none ↔
        ∀ r ∈ st.recordings, r.status = Status.transcribeDone →
          ∀ t ∈ st.transcribes, r.id ≠ some t.id) := by
  refine ⟨?_, ?_, ?_, ?_⟩
  · intro sid fp h
    unfold DatabaseManager.find_pending_transcribe_job at h
    obtain ⟨r, hmin, heq⟩ := Option.map_eq_some'.mp h
    obtain ⟨hmem, hle⟩ := minByKey_spec _ _ _ hmin
    rw [List.mem_filter] at hmem
    obtain ⟨hmem, hstat⟩ := hmem
    rw [Prod.ext_iff] at heq
    refine ⟨r, hmem, by simpa using hstat, heq.1, heq.2, ?_⟩
    intro q hq hqs
    exact hle q (List.mem_filter.mpr ⟨hq, by simpa using hqs⟩)
  · unfold DatabaseManager.find_pending_transcribe_job
    rw [Option.map_eq_none', minByKey_none, List.filter_eq_nil_iff]
    simp
  · intro sid segs h
    unfold DatabaseManager.find_pending_meta_job at h
    obtain ⟨⟨r, t⟩, hmin, heq⟩ := Option.map_eq_some'.mp h
    obtain ⟨hmem, hle⟩ := minByKey_spec _ _ _ hmin
    rw [mem_metaJoinRows] at hmem
    obtain ⟨hr, ht, hs, hid⟩ := hmem
    rw [Prod.ext_iff] at heq
    refine ⟨r, t, hr, ht, hs, hid, heq.1.symm, heq.2.symm, ?_⟩
    intro r' t' hr' ht' hs' hid'
    exact hle (r', t') ((mem_metaJoinRows st r' t').mpr ⟨hr', ht', hs', hid'⟩)
  · unfold DatabaseManager.find_pending_meta_job
    rw [Option.map_eq_none', minByKey_none]
    constructor
    · intro hjoin r hr hs t ht hid
      have hmem : (r, t) ∈ DatabaseManager.metaJoinRows st :=
        (mem_metaJoinRows st r t).mpr ⟨hr, ht, hs, hid⟩
      rw [hjoin] at hmem
      exact absurd hmem (List.not_mem_nil _)
    · intro hall
      by_contra hne
      obtain ⟨⟨r, t⟩, hmem⟩ := List.exists_mem_of_ne_nil _ hne
      rw [mem_metaJoinRows] at hmem
      exact hall r hmem.1 hmem.2.2.1 t hmem.2.1 hmem.2.2.2

/-- C2 witness: over the concrete store stW2, both queries return the
expected earliest rows and the minimality conclusions follow. -/
theorem c2_find_pending_jobs_earliest_witness :
    (∃ r, r ∈ stW2.recordings ∧ r.status = Status.pending ∧ r.id = some "a" ∧
        r.file_path = "fa.wav" ∧
      ∀ q ∈ stW2.recordings, q.status = Status.pending → r.start_time ≤ q.start_time) ∧
    (∃ r t, r ∈ stW2.recordings ∧ t ∈ stW2.transcribes ∧ r.status = Status.transcribeDone ∧
        r.id = some t.id ∧ (some "b" : Option String) = r.id ∧
        json_dumps "segB" = t.segments_json ∧
      ∀ r' t', r' ∈ stW2.recordings → t' ∈ stW2.transcribes →
        r'.status = Status.transcribeDone → r'.id = some t'.id →
        r.start_time ≤ r'.start_time) :=
  ⟨(c2_find_pending_jobs_earliest stW2).1 (some "a") "fa.wav" (by decide),
   (c2_find_pending_jobs_earliest stW2).2.2.1 (some "b") (json_dumps "segB") (by decide)⟩

theorem gui_meta_request_preserves_store (s : ListenerState) (m : Message) :
    (EventListener.handle_meta_job_request s m).state.store = s.store := by
  by_cases hq : m.worker ∈ s.commandQueues
  · by_cases hp : s.paused = true
    · simp [EventListener.handle_meta_job_request, hq, hp, HResult.state, putCmd]
    · cases hfind : DatabaseManager.find_pending_meta_job s.store with
      | none =>
          simp [EventListener.handle_meta_job_request, hq, hp, hfind, HResult.state, putCmd]
      | some x =>
          obtain ⟨sid, str⟩ := x
          cases hload : json_loads str with
          | none =>
              simp [EventListener.handle_meta_job_request, hq, hp, hfind, hload,
                HResult.state, pushStatus]
          | some segs =>
              simp [EventListener.handle_meta_job_request, hq, hp, hfind, hload,
                HResult.state, putCmd, pushStatus]
  · simp [EventListener.handle_meta_job_request, hq, HResult.state]

/-- C5: while the pause flag is set every job_requested event from a
registered worker, for both job classes, is answered with standby and the
store is untouched; toggling the flag twice restores the flag, store, sent
log and queue table; and with the flag clear a transcription job_requested
is answered with the real next job (or standby if none) computed from the
same untouched store — so no job is lost or duplicated by a pause/unpause
cycle. -/
theorem c5_pause_freezes_dispatch (s : ListenerState) (m m2 : Message) :
    (s.paused = true → s.commandQueues.contains m.worker = true →
        EventListener.handle_transcribe_job_request s m = putCmd s m.worker WTask.standby ∧
        EventListener.handle_meta_job_request s m = HResult.ok (putCmd s m.worker WTask.standby)) ∧
    ((EventListener.toggle_ai_pause (EventListener.toggle_ai_pause s m) m2).paused = s.paused ∧
     (EventListener.toggle_ai_pause (EventListener.toggle_ai_pause s m) m2).store = s.store ∧
     (EventListener.toggle_ai_pause (EventListener.toggle_ai_pause s m) m2).sent = s.sent ∧
     (EventListener.toggle_ai_pause (EventListener.toggle_ai_pause s m) m2).commandQueues =
       s.commandQueues) ∧
    (s.paused = false → s.commandQueues.contains m.worker = true →
        (EventListener.handle_transcribe_job_request s m).sent =
          s.sent ++ [(m.worker, replyOfTranscribe s.store)] ∧
        (EventListener.handle_transcribe_job_request s m).store = s.store) ∧
    ((EventListener.handle_meta_job_request s m).state.store = s.store) := by
  refine ⟨?_, ⟨?_, rfl, rfl, rfl⟩, ?_, gui_meta_request_preserves_store s m⟩
  · intro hp hq
    have hq' : m.worker ∈ s.commandQueues := by simpa using hq
    constructor
    · simp [EventListener.handle_transcribe_job_request, hq', hp]
    · simp [EventListener.handle_meta_job_request, hq', hp]
  · simp [EventListener.toggle_ai_pause, addLog, pushStatus]
  · intro hp hq
    have hq' : m.worker ∈ s.commandQueues := by simpa using hq
    have hp' : ¬ s.paused = true := by simp [hp]
    cases hfind : DatabaseManager.find_pending_transcribe_job s.store with
    | none =>
        simp [EventListener.handle_transcribe_job_request, replyOfTranscribe, hq', hp', hfind,
          putCmd]
    | some x =>
        obtain ⟨sid, fp⟩ := x
        simp [EventListener.handle_transcribe_job_request, replyOfTranscribe, hq', hp', hfind,
          putCmd, pushStatus]

/-- C5 witness: the paused listener s5 over a store that does hold a
pending job still answers standby to the registered worker. -/
theorem c5_pause_freezes_dispatch_witness :
    EventListener.handle_transcribe_job_request s5 m5 = putCmd s5 m5.worker WTask.standby ∧
    EventListener.handle_meta_job_request s5 m5 = HResult.ok (putCmd s5 m5.worker WTask.standby) :=
  (c5_pause_freezes_dispatch s5 m5 m5).1 rfl (by decide)

/-- C6 counterexample: a job_requested event whose worker name has no
registered command queue is handled by returning silently — zero replies
are sent, contradicting the exactly-one-reply claim. -/
theorem c6_unknown_worker_zero_replies :
    MainListener.handle_transcribe_job_request s6 p6 = s6 ∧
    MainListener.handle_meta_job_request s6 p6 = s6 ∧ s6.sent = [] := by
  decide

/-- C6 (amended): when the requesting worker name is registered and (for
the metadata class) the stored transcript decodes, the src/main.py
coordinator sends exactly one reply — an assignment or standby, never stop;
but when the worker name is unknown it sends no reply at all, and when the
stored segments_json fails to decode the metadata handler records an error
and likewise sends no reply. -/
theorem c6_reply_discipline (s : ListenerState) (p : Payload) :
    (s.commandQueues.contains (p.worker.getD "") = false →
        MainListener.handle_transcribe_job_request s p = s ∧
        MainListener.handle_meta_job_request s p = s) ∧
    (s.commandQueues.contains (p.worker.getD "") = true →
        (MainListener.handle_transcribe_job_request s p).sent =
          s.sent ++ [(p.worker.getD "", replyOfTranscribe s.store)] ∧
        (∀ t, metaReplyOf s.store = some t →
            (MainListener.handle_meta_job_request s p).sent =
              s.sent ++ [(p.worker.getD "", t)]) ∧
        (metaReplyOf s.store = none →
            (MainListener.handle_meta_job_request s p).sent = s.sent)) ∧
    (∀ st : Store, replyOfTranscribe st = WTask.standby ∨
        ∃ sid fp, replyOfTranscribe st = WTask.transcribe sid fp) ∧
    (∀ (st : Store) (t : WTask), metaReplyOf st = some t →
        t = WTask.standby ∨ ∃ sid segs, t = WTask.generate_meta sid segs) := by
  refine ⟨?_, ?_, ?_, ?_⟩
  · intro h
    have h' : p.worker.getD "" ∉ s.commandQueues := by simpa using h
    constructor
    · simp [MainListener.handle_transcribe_job_request, h']
    · simp [MainListener.handle_meta_job_request, h']
  · intro h
    have h' : p.worker.getD "" ∈ s.commandQueues := by simpa using h
    refine ⟨?_, ?_, ?_⟩
    · cases hfind : DatabaseManager.find_pending_transcribe_job s.store with
      | none =>
          simp [MainListener.handle_transcribe_job_request, replyOfTranscribe, h', hfind, putCmd]
      | some x =>
          obtain ⟨sid, fp⟩ := x
          simp [MainListener.handle_transcribe_job_request, replyOfTranscribe, h', hfind, putCmd]
    · intro t hmr
      unfold metaReplyOf at hmr
      cases hfind : DatabaseManager.find_pending_meta_job s.store with
      | none =>
          simp only [hfind] at hmr
          simp only [Option.some.injEq] at hmr
          subst hmr
          simp [MainListener.handle_meta_job_request, h', hfind, putCmd]
      | some x =>
          obtain ⟨sid, str⟩ := x
          simp only [hfind] at hmr
          cases hload : json_loads str with
          | none => rw [hload] at hmr; simp at hmr
          | some segs =>
              rw [hload] at hmr
              simp only [Option.map_some', Option.some.injEq] at hmr
              subst hmr
              simp [MainListener.handle_meta_job_request, h', hfind, hload, putCmd]
    · intro hmr
      unfold metaReplyOf at hmr
      cases hfind : DatabaseManager.find_pending_meta_job s.store with
      | none => simp only [hfind] at hmr; simp at hmr
      | some x =>
          obtain ⟨sid, str⟩ := x
          simp only [hfind] at hmr
          cases hload : json_loads str with
          | some segs => rw [hload] at hmr; simp at hmr
          | none => simp [MainListener.handle_meta_job_request, h', hfind, hload]
  · intro st
    unfold replyOfTranscribe
    cases hfind : DatabaseManager.find_pending_transcribe_job st with
    | none => left; rfl
    | some x =>
        obtain ⟨sid, fp⟩ := x
        right; exact ⟨sid, fp, rfl⟩
  · intro st t hmr
    unfold metaReplyOf at hmr
    cases hfind : DatabaseManager.find_pending_meta_job st with
    | none =>
        simp only [hfind] at hmr
        simp only [Option.some.injEq] at hmr
        subst hmr; left; rfl
    | some x =>
        obtain ⟨sid, str⟩ := x
        simp only [hfind] at hmr
        cases hload : json_loads str with
        | none => rw [hload] at hmr; simp at hmr
        | some segs =>
            rw [hload] at hmr
            simp only [Option.map_some', Option.some.injEq] at hmr
            subst hmr
            right; exact ⟨sid, segs, rfl⟩

/-- C6 witness for the amended theorem: with the registered worker name,
each handler sends exactly the characterised single reply. -/
theorem c6_reply_discipline_witness :
    (MainListener.handle_transcribe_job_request s6 p6b).sent =
      s6.sent ++ [("TranscribeWorker-1", replyOfTranscribe s6.store)] ∧
    (MainListener.handle_meta_job_request s6 p6b).sent =
      s6.sent ++ [("TranscribeWorker-1", WTask.standby)] :=
  ⟨((c6_reply_discipline s6 p6b).2.1 (by decide)).1,
   ((c6_reply_discipline s6 p6b).2.1 (by decide)).2.1 WTask.standby (by decide)⟩

/-- C8: the listen loop is total over inbound dict messages — handling one
message always produces a successor state and the loop proceeds with the
remaining messages; an event name with no handler only logs a warning and
leaves the store and command output untouched; and an exception escaping a
handler is caught and turned into an error log line, the loop continuing
from the state the handler left. -/
theorem c8_listen_loop_robust (s : ListenerState) (m : Message) (rest : List Message) :
    EventListener.listen_run s (m :: rest) =
      EventListener.listen_run (EventListener.listen_step s m) rest ∧
    (EventListener.runHandler (EventListener.statusByEvent s m) m = none →
        EventListener.listen_step s m =
          addLog (EventListener.statusByEvent s m) (EventListener.unknownWarn m.event) ∧
        (EventListener.statusByEvent s m).store = s.store ∧
        (EventListener.statusByEvent s m).sent = s.sent) ∧
    (∀ s2, EventListener.runHandler (EventListener.statusByEvent s m) m =
        some (HResult.raised s2) →
        EventListener.listen_step s m = addLog s2 (EventListener.handlerFailWarn m.event)) ∧
    (∀ s2, EventListener.runHandler (EventListener.statusByEvent s m) m =
        some (HResult.ok s2) →
        EventListener.listen_step s m = s2) := by
  refine ⟨rfl, ?_, ?_, ?_⟩
  · intro h
    refine ⟨?_, statusByEvent_store s m, statusByEvent_sent s m⟩
    simp only [EventListener.listen_step]
    rw [h]
  · intro s2 h
    simp only [EventListener.listen_step]
    rw [h]
  · intro s2 h
    simp only [EventListener.listen_step]
    rw [h]

/-- C8 witness: a message with an unknown event name only logs the warning
and changes neither the store nor the sent commands. -/
theorem c8_listen_loop_robust_witness :
    EventListener.listen_step s8 m8 =
      addLog (EventListener.statusByEvent s8 m8) (EventListener.unknownWarn m8.event) ∧
    (EventListener.statusByEvent s8 m8).store = s8.store ∧
    (EventListener.statusByEvent s8 m8).sent = s8.sent :=
  (c8_listen_loop_robust s8 m8 []).2.1 rfl

end VVJ
